import Mathlib

/-!
Shallow embedding of the geometric core of the constant-workspace
shortest-path library (geometry/ and gsp/ of the repository).

Python floats are modelled by exact rationals; machine integers by `Int`.
Python methods that can raise become functions into `Except PyErr`;
methods returning `None` become `Option`-valued functions.
-/

namespace CWA

/-- Errors raised by the geometry code (geometry/exceptions.py together
with the builtin Python errors the code can hit). -/
inductive PyErr where
  | notInGeneralPosition
  | threePointsCollinear
  | degeneratedCase
  | boundedFunnelConcave
  | valueError
  | attributeError
  | assertionError
  deriving DecidableEq, Repr

/-- A point in the plane (geometry/point.py, class Point). -/
structure Pt where
  x : ℚ
  y : ℚ
  deriving DecidableEq, Repr

/-- geometry/functions.py, `sign`: -1 / 0 / 1 depending on the sign. -/
def sgn (a : ℚ) : Int :=
  if 0 < a then 1 else if a < 0 then -1 else 0

/-- The raw cross product `(p2-p1) x (p3-p1)` used by `Point.turn`. -/
def cross (p1 p2 p3 : Pt) : ℚ :=
  (p2.x - p1.x) * (p3.y - p1.y) - (p3.x - p1.x) * (p2.y - p1.y)

/-- geometry/point.py, `Point.turn`: the sign of the 2D cross product. -/
def turn (p1 p2 p3 : Pt) : Int :=
  sgn (cross p1 p2 p3)

/-- The epsilon used by `Point.__eq__`. -/
def eps : ℚ := 1 / 1000000

/-- geometry/point.py, `Point.__eq__`: both coordinates agree within eps. -/
def ptEq (a b : Pt) : Bool :=
  decide (-eps ≤ a.x - b.x) && decide (a.x - b.x ≤ eps) &&
  decide (-eps ≤ a.y - b.y) && decide (a.y - b.y ≤ eps)

/-- geometry/point.py, `Point.squared_distance_to`. -/
def sqDist (a b : Pt) : ℚ :=
  (a.x - b.x) ^ 2 + (a.y - b.y) ^ 2

/-- geometry/point.py, `Point.is_right_of` (strict comparison of x). -/
def isRightOf (self obj : Pt) : Bool := decide (obj.x < self.x)

/-- geometry/point.py, `Point.left_of` (strict comparison of x). -/
def leftOf (self obj : Pt) : Bool := decide (obj.x > self.x)

/-- geometry/line_segment.py, class LineSegment: an oriented pair. -/
structure Seg where
  a : Pt
  b : Pt
  deriving DecidableEq, Repr

/-- geometry/line_segment.py, `LineSegment.intersects`. -/
def segIntersects (self other : Seg) : Bool :=
  decide (turn self.a self.b other.a ≠ turn self.a self.b other.b) &&
  decide (turn other.a other.b self.a ≠ turn other.a other.b self.b)

/-- geometry/line_segment.py, `LineSegment.properly_intersects`. -/
def segProperlyIntersects (self other : Seg) : Bool :=
  decide (turn self.a self.b other.a ≠ turn self.a self.b other.b) &&
  decide (turn self.a self.b other.a ≠ 0) &&
  decide (turn self.a self.b other.b ≠ 0) &&
  decide (turn other.a other.b self.a ≠ turn other.a other.b self.b) &&
  decide (turn other.a other.b self.a ≠ 0) &&
  decide (turn other.a other.b self.b ≠ 0)

/-- geometry/line_segment.py, `LineSegment._intersection` with
`return_point=True` (used by `intersection`).  The parallel branch
(`a1 * b2 - a2 * b1 == 0`) returns the Python constant `False`; both it
and the out-of-range branch yield no intersection point, modelled as
`none`. -/
def segIntersection (self segm : Seg) : Option Pt :=
  let a1 := self.b.x - self.a.x
  let b1 := segm.a.x - segm.b.x
  let c1 := segm.a.x - self.a.x
  let a2 := self.b.y - self.a.y
  let b2 := segm.a.y - segm.b.y
  let c2 := segm.a.y - self.a.y
  if a1 * b2 - a2 * b1 = 0 then none
  else
    let s := (c1 * b2 - c2 * b1) / (a1 * b2 - a2 * b1)
    let t := (a1 * c2 - a2 * c1) / (a1 * b2 - a2 * b1)
    if 0 ≤ s ∧ s ≤ 1 ∧ 0 ≤ t ∧ t ≤ 1 then
      if s = 0 then some self.a
      else if s = 1 then some self.b
      else if t = 0 then some segm.a
      else if t = 1 then some segm.b
      else some ⟨self.a.x + s * a1, self.a.y + s * a2⟩
    else none

/-- geometry/line.py, class Line: kept as the two construction points. -/
structure Ln where
  a : Pt
  b : Pt
  deriving DecidableEq, Repr

/-- geometry/line.py, `Line.__init__`: raises `DegeneratedCaseException`
when the two construction points are equal under `Point.__eq__`. -/
def lineNew (a b : Pt) : Except PyErr Ln :=
  if ptEq a b then .error .degeneratedCase else .ok ⟨a, b⟩

/-- geometry/line.py, `Line.y_value`: raises a `ValueError` for a
vertical line, otherwise interpolates the y-coordinate at `x`. -/
def lineYValue (a b : Pt) (x : ℚ) : Except PyErr ℚ :=
  if a.x = b.x then .error .valueError
  else .ok ((a.y - b.y) * (x - b.x) / (a.x - b.x) + b.y)

/-- geometry/bounded_funnel.py, class BoundedFunnel (the fields relevant
to construction). -/
structure PyBoundedFunnel where
  cusp : Pt
  first : Pt
  second : Pt
  boundaryA : Pt
  boundaryB : Pt
  ftype : Int
  boundary : Ln
  deriving DecidableEq, Repr

/-- geometry/bounded_funnel.py, `BoundedFunnel.__init__`: the parent
constructor computes the type as `Point.turn(cusp, first, second)`;
a concave type (CW turn, -1) raises
`BoundedFunnelMustNotBeConcaveException`; only then the boundary line is
built (which may raise the degenerated-case error) and a clockwise
boundary raises a `ValueError`. -/
def boundedFunnelNew (cusp first second ba bb : Pt) : Except PyErr PyBoundedFunnel :=
  let ty := turn cusp first second
  if ty = -1 then .error .boundedFunnelConcave
  else
    match lineNew ba bb with
    | .error e => .error e
    | .ok l =>
        if turn ba bb cusp = -1 then .error .valueError
        else .ok ⟨cusp, first, second, ba, bb, ty, l⟩

/-- geometry/circle.py, class Circle, with the squared radius stored
(the three-point constructor stores `_radius2` directly). -/
structure PyCircle where
  center : Pt
  radius2 : ℚ
  deriving DecidableEq, Repr

/-- A perpendicular-bisector line in the form `u * x + v * y = w`, as
the tuples built inside `Circle.__init__`. -/
structure Bis where
  u : ℚ
  v : ℚ
  w : ℚ
  deriving DecidableEq, Repr

/-- geometry/circle.py, `Circle.__init__`: the perpendicular bisector
tuple for a pair of points (special-cased for equal y-coordinates). -/
def bisector (p q : Pt) : Bis :=
  if p.y = q.y then ⟨1, 0, (p.x + q.x) / 2⟩
  else ⟨2 * (p.x - q.x), 2 * (p.y - q.y), p.x ^ 2 - q.x ^ 2 + p.y ^ 2 - q.y ^ 2⟩

/-- The x-coordinate of the circumcircle centre by Cramer's rule, as in
`Circle.__init__`. -/
def cramerX (b1 b2 : Bis) : ℚ :=
  (b1.w * b2.v - b2.w * b1.v) / (b1.u * b2.v - b2.u * b1.v)

/-- The y-coordinate of the circumcircle centre by Cramer's rule, as in
`Circle.__init__`. -/
def cramerY (b1 b2 : Bis) : ℚ :=
  (b1.u * b2.w - b2.u * b1.w) / (b1.u * b2.v - b2.u * b1.v)

/-- geometry/circle.py, `Circle.__init__` with three points: build both
perpendicular bisectors, raise `ThreePointsAreCollinearException` when
they are parallel, otherwise intersect them for the centre and store the
squared distance to the first point as the squared radius. -/
def circleFromThree (a b c : Pt) : Except PyErr PyCircle :=
  let b1 := bisector a b
  let b2 := bisector a c
  if b1.v * b2.u = b1.u * b2.v then .error .threePointsCollinear
  else
    let ctr : Pt := ⟨cramerX b1 b2, cramerY b1 b2⟩
    .ok ⟨ctr, sqDist ctr a⟩

/-- geometry/circle.py, `Circle.contains`: squared distance to the
centre is at most the squared radius. -/
def circleContains (k : PyCircle) (p : Pt) : Bool :=
  decide (sqDist k.center p ≤ k.radius2)

/-- geometry/ray.py, class Ray: starts at `a`, through `b`. -/
structure PyRay where
  a : Pt
  b : Pt
  deriving DecidableEq, Repr

/-- geometry/funnel.py, class Funnel: the three defining points, the
cached turn classification `_type` and the two lazily cached rays. -/
structure PyFunnel where
  cusp : Pt
  first : Pt
  second : Pt
  ftype : Int
  firstRayC : Option PyRay
  secondRayC : Option PyRay
  deriving DecidableEq, Repr

/-- geometry/funnel.py, `Funnel.__init__`. -/
def funnelMk (cusp first second : Pt) : PyFunnel :=
  ⟨cusp, first, second, turn cusp first second, none, none⟩

/-- geometry/funnel.py, the `first` setter: stores the point, drops the
cached first ray and recomputes the type from the new points. -/
def funnelSetFirst (F : PyFunnel) (v : Pt) : PyFunnel :=
  { F with first := v, firstRayC := none, ftype := turn F.cusp v F.second }

/-- geometry/funnel.py, the `cusp` setter: stores the point, recomputes
the type and drops both cached rays. -/
def funnelSetCusp (F : PyFunnel) (v : Pt) : PyFunnel :=
  { F with cusp := v, ftype := turn v F.first F.second,
           firstRayC := none, secondRayC := none }

/-- geometry/funnel.py, the `second` setter: stores the point, drops the
cached second ray and recomputes the type from the new points. -/
def funnelSetSecond (F : PyFunnel) (v : Pt) : PyFunnel :=
  { F with second := v, secondRayC := none, ftype := turn F.cusp F.first v }

/-- geometry/funnel.py, the `first_ray` property: returns the cached ray
or builds `Ray(cusp, first)`, caching it.  The pair is (returned ray,
funnel after the cache write). -/
def funnelFirstRay (F : PyFunnel) : PyRay × PyFunnel :=
  match F.firstRayC with
  | some r => (r, F)
  | none => (⟨F.cusp, F.first⟩, { F with firstRayC := some ⟨F.cusp, F.first⟩ })

/-- geometry/funnel.py, the `second_ray` property, analogous. -/
def funnelSecondRay (F : PyFunnel) : PyRay × PyFunnel :=
  match F.secondRayC with
  | some r => (r, F)
  | none => (⟨F.cusp, F.second⟩, { F with secondRayC := some ⟨F.cusp, F.second⟩ })

/-- The funnel states reachable through the public interface of
geometry/funnel.py: construction, the three point setters, and the
cache-filling ray property reads. -/
inductive FunnelReachable : PyFunnel → Prop where
  | mk (cusp first second : Pt) : FunnelReachable (funnelMk cusp first second)
  | setFirst {F : PyFunnel} (v : Pt) :
      FunnelReachable F → FunnelReachable (funnelSetFirst F v)
  | setCusp {F : PyFunnel} (v : Pt) :
      FunnelReachable F → FunnelReachable (funnelSetCusp F v)
  | setSecond {F : PyFunnel} (v : Pt) :
      FunnelReachable F → FunnelReachable (funnelSetSecond F v)
  | readFirstRay {F : PyFunnel} :
      FunnelReachable F → FunnelReachable (funnelFirstRay F).2
  | readSecondRay {F : PyFunnel} :
      FunnelReachable F → FunnelReachable (funnelSecondRay F).2

/-! ### Polygon and trapezoidation (geometry/polygon.py) -/

/-- geometry/polygon.py, `Polygon.point`: the polygon is a list of
vertices in counter-clockwise order, every index is taken mod n. -/
def pt (P : List Pt) (i : Nat) : Pt :=
  P.getD (i % P.length) ⟨0, 0⟩

/-- geometry/polygon.py, `Polygon.prev`: `(index - 1) % len` for an
in-range index. -/
def prevIx (n i : Nat) : Nat :=
  (i + n - 1) % n

/-- The loop state of `Polygon._find_edges_above_and_below`: the
distances and edge indices of the best bottom/top edges found so far and
the vertex nodes sharing the query's x-coordinate (with their index). -/
structure FEState where
  distBelow : Option ℚ
  distAbove : Option ℚ
  topEdge : Option Nat
  botEdge : Option Nat
  topNode : Option (Pt × Nat)
  botNode : Option (Pt × Nat)
  deriving DecidableEq, Repr

/-- The initial state of `_find_edges_above_and_below`. -/
def feInit : FEState := ⟨none, none, none, none, none, none⟩

/-- `node is None or cy > node.y` from `_find_edges_above_and_below`. -/
def nodeBetter (cy : ℚ) (node : Option (Pt × Nat)) : Bool :=
  match node with
  | none => true
  | some n => decide (cy > n.1.y)

/-- `dist is None or d < dist` from `_find_edges_above_and_below`. -/
def distBetter (d : ℚ) (old : Option ℚ) : Bool :=
  match old with
  | none => true
  | some o => decide (d < o)

/-- The vertex-node bookkeeping of `_find_edges_above_and_below` (the
`p.x == curr.x` block): remember the highest vertex strictly below and
the highest vertex strictly above the query sharing its x-coordinate. -/
def feNode (p curr : Pt) (i : Nat) (st : FEState) : FEState :=
  if p.x = curr.x then
    if curr.y < p.y ∧ nodeBetter curr.y st.botNode = true then
      { st with botNode := some (curr, i) }
    else if curr.y > p.y ∧ nodeBetter curr.y st.topNode = true then
      { st with topNode := some (curr, i) }
    else st
  else st

/-- The edge bookkeeping of `_find_edges_above_and_below`: interpolate
the edge's y at `p.x`; a closer edge below must run left-to-right to be
kept (otherwise the bottom candidate is reset), a closer edge above must
run right-to-left (otherwise the top candidate is reset).  The stored
best distance is only updated when the candidate is kept. -/
def feEdge (p curr nxt : Pt) (i : Nat) (st : FEState) : FEState :=
  let y := (curr.y - nxt.y) * (p.x - nxt.x) / (curr.x - nxt.x) + nxt.y
  let st1 :=
    if y < p.y ∧ distBetter (p.y - y) st.distBelow = true then
      if curr.x < nxt.x then { st with botEdge := some i, distBelow := some (p.y - y) }
      else { st with botEdge := none }
    else st
  if y > p.y ∧ distBetter (y - p.y) st1.distAbove = true then
    if curr.x > nxt.x then { st1 with topEdge := some i, distAbove := some (y - p.y) }
    else { st1 with topEdge := none }
  else st1

/-- One iteration of `_find_edges_above_and_below`: skip edges not
covering `p.x`; update the vertex nodes; `Line.y_value` raises a
`ValueError` on a vertical edge; otherwise update the edge candidates. -/
def feStep (P : List Pt) (p : Pt) (st : FEState) (i : Nat) : Except PyErr FEState :=
  let curr := pt P i
  let nxt := pt P (i + 1)
  if p.x < min curr.x nxt.x ∨ p.x > max curr.x nxt.x then .ok st
  else
    let st1 := feNode p curr i st
    if curr.x = nxt.x then .error .valueError
    else .ok (feEdge p curr nxt i st1)

/-- The edge loop of `_find_edges_above_and_below` over the vertex
indices. -/
def feLoop (P : List Pt) (p : Pt) : List Nat → FEState → Except PyErr FEState
  | [], st => .ok st
  | i :: rest, st =>
      match feStep P p st i with
      | .error e => .error e
      | .ok st' => feLoop P p rest st'

/-- The tail of `Polygon._find_edges_above_and_below` after the
general-position check: a missing top/bottom edge is recovered from a
vertex node using the interior-side turn rule; the function returns
`(top_edge_index, bottom_edge_index)` or `None, None`, after asserting
the directions of the found edges. -/
def feFinish (P : List Pt) (p : Pt) (st : FEState) : Except PyErr (Option (Nat × Nat)) :=
  let te :=
    match st.topEdge, st.topNode with
    | none, some (tn, ti) =>
        if turn tn (pt P (ti + 1)) p ≠ -1 then some ti
        else some (prevIx P.length ti)
    | e, _ => e
  let be :=
    match st.botEdge, st.botNode with
    | none, some (bn, bi) =>
        if turn (pt P (prevIx P.length bi)) bn p ≠ -1 then some (prevIx P.length bi)
        else some bi
    | e, _ => e
  match te, be with
  | some t, some b =>
      if ¬(pt P (t + 1)).x < (pt P t).x then .error .assertionError
      else if ¬(pt P b).x < (pt P (b + 1)).x then .error .assertionError
      else .ok (some (t, b))
  | _, _ => .ok none

/-- geometry/polygon.py, `Polygon._find_edges_above_and_below`: run the
edge loop; vertex nodes both above and below raise
`NotInGeneralPositionException`; otherwise finish with `feFinish`. -/
def findEdges (P : List Pt) (p : Pt) : Except PyErr (Option (Nat × Nat)) :=
  match feLoop P p (List.range P.length) feInit with
  | .error e => .error e
  | .ok st =>
      if st.topNode ≠ none ∧ st.botNode ≠ none then .error .notInGeneralPosition
      else feFinish P p st

/-- Edge `i` of the polygon is vertical and lies on the query's
x-coordinate; this is exactly when `Line.y_value` inside
`_find_edges_above_and_below` raises its `ValueError`. -/
def vertAt (P : List Pt) (p : Pt) (i : Nat) : Prop :=
  (pt P i).x = (pt P (i + 1)).x ∧ p.x = (pt P i).x

instance (P : List Pt) (p : Pt) (i : Nat) : Decidable (vertAt P p i) := by
  unfold vertAt; infer_instance

/-- geometry/trapezoid.py, class Trapezoid. -/
structure Trap where
  xLeft : ℚ
  xRight : ℚ
  yLeft1 : ℚ
  yRight1 : ℚ
  yLeft2 : ℚ
  yRight2 : ℚ
  topEdgeIx : Nat
  botEdgeIx : Nat
  topLeftIx : Option Nat
  botLeftIx : Option Nat
  topRightIx : Option Nat
  botRightIx : Option Nat
  deriving DecidableEq, Repr

/-- geometry/trapezoid.py, `Trapezoid.__eq__`: compares only the six
coordinates, not the stored indices. -/
def trapEqB (s t : Trap) : Bool :=
  decide (s.xLeft = t.xLeft) && decide (s.xRight = t.xRight) &&
  decide (s.yLeft1 = t.yLeft1) && decide (s.yLeft2 = t.yLeft2) &&
  decide (s.yRight1 = t.yRight1) && decide (s.yRight2 = t.yRight2)

/-- The state of the reflex-vertex scan in `Polygon.trapezoid`. -/
structure ScanSt where
  left : Pt
  right : Pt
  topLeftIx : Option Nat
  botLeftIx : Option Nat
  topRightIx : Option Nat
  botRightIx : Option Nat
  deriving DecidableEq, Repr

/-- `Line.y` on a stored line (geometry/line.py). -/
def lineYv (l : Ln) (x : ℚ) : Except PyErr ℚ :=
  lineYValue l.a l.b x

/-- The chained comparison `bot_line.y(curr.x) <= curr.y <=
top_line.y(curr.x)` from the scan of `Polygon.trapezoid`: `bot_line.y`
is evaluated first and `top_line.y` only when the first comparison
holds. -/
def scanYCheck (topL botL : Ln) (curr : Pt) : Except PyErr Bool :=
  match lineYv botL curr.x with
  | .error e => .error e
  | .ok yb =>
      if yb ≤ curr.y then
        match lineYv topL curr.x with
        | .error e => .error e
        | .ok yt => .ok (decide (curr.y ≤ yt))
      else .ok false

/-- The index-based part of the left-boundary condition of the scan in
`Polygon.trapezoid`: the vertex lies strictly between the current left
boundary and `p`, and both neighbours lie weakly to its left. -/
def condL (P : List Pt) (p : Pt) (st : ScanSt) (i : Nat) : Prop :=
  isRightOf (pt P i) st.left = true ∧ leftOf (pt P i) p = true ∧
  ¬isRightOf (pt P (prevIx P.length i)) (pt P i) = true ∧
  ¬isRightOf (pt P ((i + 1) % P.length)) (pt P i) = true

instance (P : List Pt) (p : Pt) (st : ScanSt) (i : Nat) : Decidable (condL P p st i) := by
  unfold condL; infer_instance

/-- The index-based part of the right-boundary condition of the scan in
`Polygon.trapezoid`, mirror image of `condL`. -/
def condR (P : List Pt) (p : Pt) (st : ScanSt) (i : Nat) : Prop :=
  leftOf (pt P i) st.right = true ∧ isRightOf (pt P i) p = true ∧
  ¬leftOf (pt P (prevIx P.length i)) (pt P i) = true ∧
  ¬leftOf (pt P ((i + 1) % P.length)) (pt P i) = true

instance (P : List Pt) (p : Pt) (st : ScanSt) (i : Nat) : Decidable (condR P p st i) := by
  unfold condR; infer_instance

/-- One iteration of the reflex-vertex scan in `Polygon.trapezoid`:
a vertex satisfying `condL` and the vertical check becomes the new left
boundary (clearing the stored corner indices); then symmetrically on the
right with the possibly updated state. -/
def scanStep (P : List Pt) (p : Pt) (topL botL : Ln) (st : ScanSt) (i : Nat) :
    Except PyErr ScanSt :=
  let curr := pt P i
  match (if condL P p st i then scanYCheck topL botL curr else .ok false) with
  | .error e => .error e
  | .ok okL =>
      let st1 := if okL then { st with left := curr, topLeftIx := none, botLeftIx := none }
                 else st
      match (if condR P p st1 i then scanYCheck topL botL curr else .ok false) with
      | .error e => .error e
      | .ok okR =>
          .ok (if okR then { st1 with right := curr, topRightIx := none, botRightIx := none }
               else st1)

/-- The reflex-vertex scan loop of `Polygon.trapezoid`. -/
def scanLoop (P : List Pt) (p : Pt) (topL botL : Ln) :
    List Nat → ScanSt → Except PyErr ScanSt
  | [], st => .ok st
  | i :: rest, st =>
      match scanStep P p topL botL st i with
      | .error e => .error e
      | .ok st' => scanLoop P p topL botL rest st'

/-- The corner y-value selection at the end of `Polygon.trapezoid`:
the edge endpoint's own y when the boundary sits on it, otherwise the
line interpolation. -/
def cornerY (v : Pt) (l : Ln) (x : ℚ) : Except PyErr ℚ :=
  if x = v.x then .ok v.y else lineYv l x

/-- The tail of `Polygon.trapezoid` after the boundary selection: build
the top and bottom lines, run the reflex-vertex scan from the selected
initial state and assemble the trapezoid. -/
def trapAssemble (P : List Pt) (p : Pt) (te be : Nat) (st0 : ScanSt) :
    Except PyErr (Option Trap) :=
  match lineNew (pt P (te + 1)) (pt P te) with
  | .error e => .error e
  | .ok topL =>
      match lineNew (pt P be) (pt P (be + 1)) with
      | .error e => .error e
      | .ok botL =>
          match scanLoop P p topL botL (List.range P.length) st0 with
          | .error e => .error e
          | .ok st =>
              match cornerY (pt P (te + 1)) topL st.left.x with
              | .error e => .error e
              | .ok yL1 =>
                  match cornerY (pt P te) topL st.right.x with
                  | .error e => .error e
                  | .ok yR1 =>
                      match cornerY (pt P be) botL st.left.x with
                      | .error e => .error e
                      | .ok yL2 =>
                          match cornerY (pt P (be + 1)) botL st.right.x with
                          | .error e => .error e
                          | .ok yR2 =>
                              .ok (some ⟨st.left.x, st.right.x, yL1, yR1, yL2, yR2,
                                te, be, st.topLeftIx, st.botLeftIx,
                                st.topRightIx, st.botRightIx⟩)

/-- The part of `Polygon.trapezoid` that runs after
`_find_edges_above_and_below` returned the two edge indices: assert the
edge directions, select the trapezoid's left/right boundary among the
four edge endpoints, then assemble via `trapAssemble`. -/
def trapRest (P : List Pt) (p : Pt) (te be : Nat) : Except PyErr (Option Trap) :=
  let vTopLeft := pt P (te + 1)
  let vTopRight := pt P te
  let vBotLeft := pt P be
  let vBotRight := pt P (be + 1)
  if ¬isRightOf vTopRight vTopLeft = true then .error .assertionError
  else if ¬isRightOf vBotRight vBotLeft = true then .error .assertionError
  else
    let lsel : Pt × Option Nat × Option Nat :=
      if isRightOf vTopLeft vBotLeft = true then (vTopLeft, some ((te + 1) % P.length), none)
      else if isRightOf vBotLeft vTopLeft = true then (vBotLeft, none, some be)
      else (vBotLeft, some ((te + 1) % P.length), some be)
    let rsel : Pt × Option Nat × Option Nat :=
      if leftOf vTopRight vBotRight = true then (vTopRight, some te, none)
      else if leftOf vBotRight vTopRight = true then (vBotRight, none, some ((be + 1) % P.length))
      else (vBotRight, some te, some ((be + 1) % P.length))
    trapAssemble P p te be ⟨lsel.1, rsel.1, lsel.2.1, lsel.2.2, rsel.2.1, rsel.2.2⟩

/-- geometry/polygon.py, `Polygon.trapezoid`: locate the trapezoid of
the polygon containing `p`; `None` when the directional edge scan finds
no top or bottom edge. -/
def trapezoidFn (P : List Pt) (p : Pt) : Except PyErr (Option Trap) :=
  match findEdges P p with
  | .error e => .error e
  | .ok none => .ok none
  | .ok (some (te, be)) => trapRest P p te be

/-! ### Shortest-path engine openings (gsp/) -/

/-- The observable start of a shortest-path engine run: either the
trivial cases settled the query with a finished point list, or the
engine enters its main loop. -/
inductive CellOutcome (T : Type) where
  | path (ps : List Pt)
  | walk (sCell tCell : T)
  deriving DecidableEq, Repr

/-- gsp/delaunay.py, `shortest_path`, lines up to the main loop: the
`s == t` check, locating both points (modelled by the polygon's
`locate_point_in_triangle` passed as a function), the `None` check and
the same-triangle check. -/
def dtPrelude {T : Type} [DecidableEq T] (locate : Pt → Option T) (s t : Pt) :
    CellOutcome T :=
  if ptEq s t then .path [s]
  else
    match locate s, locate t with
    | some a, some b => if a = b then .path [s, t] else .walk a b
    | _, _ => .path []

/-- gsp/lee_preparata.py, `shortest_path`, lines up to the diagonal
computation: identical trivial-case structure to the Delaunay engine. -/
def lpPrelude {T : Type} [DecidableEq T] (locate : Pt → Option T) (s t : Pt) :
    CellOutcome T :=
  if ptEq s t then .path [s]
  else
    match locate s, locate t with
    | some a, some b => if a = b then .path [s, t] else .walk a b
    | _, _ => .path []

/-- The boundary-shift block of gsp/trapezoid.py / gsp/makestep.py:
reading `x_left` of a `None` trapezoid raises an `AttributeError`;
a point on a vertical trapezoid boundary is moved inward by half of
`min(width, 0.00002)` and relocated (without a further `None` check). -/
def shiftStep (P : List Pt) (p : Pt) (o : Option Trap) : Except PyErr (Pt × Option Trap) :=
  match o with
  | none => .error .attributeError
  | some T =>
      if p.x = T.xLeft ∨ p.x = T.xRight then
        let shift := min (T.xRight - T.xLeft) (2 / 100000) / 2
        let p' : Pt := if p.x = T.xLeft then ⟨p.x + shift, p.y⟩ else ⟨p.x - shift, p.y⟩
        match trapezoidFn P p' with
        | .error e => .error e
        | .ok T' => .ok (p', T')
      else .ok (p, some T)

/-- The `s_trapezoid == t_trapezoid` comparison of the engines: Python
compares `None == None` as true, `None` against a trapezoid as false and
two trapezoids with `Trapezoid.__eq__`. -/
def optTrapEqB : Option Trap → Option Trap → Bool
  | none, none => true
  | some a, some b => trapEqB a b
  | _, _ => false

/-- gsp/trapezoid.py, `shortest_path`, lines up to the main loop: the
`s == t` check, locating both points, the boundary shifts and the
same-trapezoid check (which yields the original s and t). -/
def trPrelude (P : List Pt) (s t : Pt) : Except PyErr (CellOutcome Pt) :=
  if ptEq s t then .ok (.path [s])
  else
    match trapezoidFn P s with
    | .error e => .error e
    | .ok sT0 =>
        match trapezoidFn P t with
        | .error e => .error e
        | .ok tT0 =>
            match shiftStep P s sT0 with
            | .error e => .error e
            | .ok (s', sT) =>
                match shiftStep P t tT0 with
                | .error e => .error e
                | .ok (t', tT) =>
                    if optTrapEqB sT tT then .ok (.path [s, t])
                    else .ok (.walk s' t')

/-- gsp/makestep.py, `shortest_path`, lines up to the main loop: the
same opening as the trapezoid engine (the two files duplicate this
code). -/
def msPrelude (P : List Pt) (s t : Pt) : Except PyErr (CellOutcome Pt) :=
  if ptEq s t then .ok (.path [s])
  else
    match trapezoidFn P s with
    | .error e => .error e
    | .ok sT0 =>
        match trapezoidFn P t with
        | .error e => .error e
        | .ok tT0 =>
            match shiftStep P s sT0 with
            | .error e => .error e
            | .ok (s', sT) =>
                match shiftStep P t tT0 with
                | .error e => .error e
                | .ok (t', tT) =>
                    if optTrapEqB sT tT then .ok (.path [s, t])
                    else .ok (.walk s' t')

/-! ### Concrete instances used as test inputs -/

/-- The convex triangle of scenario S1: `[(0,0), (10,0), (0,10)]`. -/
def triPoly : List Pt := [⟨0, 0⟩, ⟨10, 0⟩, ⟨0, 10⟩]

/-- A CCW pentagon whose vertices 1 and 3 share the x-coordinate 6 and
which has no vertical edge at x = 6. -/
def pentXPoly : List Pt := [⟨0, 0⟩, ⟨6, 0⟩, ⟨3, 2⟩, ⟨6, 4⟩, ⟨0, 4⟩]

/-- A CCW C-shaped polygon (a box with a pocket opening to the right),
listed starting at the pocket's lower-right corner. -/
def cShapePoly : List Pt :=
  [⟨10, 4⟩, ⟨4, 4⟩, ⟨4, 6⟩, ⟨10, 6⟩, ⟨10, 10⟩, ⟨0, 10⟩, ⟨0, 0⟩, ⟨10, 0⟩]

/-- The trapezoid of the triangle `triPoly` containing its interior
points, as computed by `Polygon.trapezoid`. -/
def triTrap : Trap := ⟨0, 10, 10, 0, 0, 0, 1, 0, some 2, some 0, some 1, some 1⟩

end CWA

namespace CWA

/-! ## Claim C6 : antisymmetry of the turn predicate -/

theorem sgn_neg (a : ℚ) : sgn (-a) = -sgn a := by
  unfold sgn
  rcases lt_trichotomy a 0 with h | h | h
  · rw [if_pos (by linarith : (0 : ℚ) < -a), if_neg (by linarith : ¬0 < a), if_pos h]
    norm_num
  · subst h; norm_num
  · rw [if_neg (by linarith : ¬(0 : ℚ) < -a), if_pos (by linarith : -a < 0), if_pos h]

/-- C6: For all points p₁, p₂, p₃, `Turn(p₁,p₂,p₃) = -Turn(p₂,p₁,p₃)` and
`Turn(p₁,p₂,p₃) = -Turn(p₁,p₃,p₂)`, where `Turn` is the sign of the 2D
cross product `(p₂-p₁) x (p₃-p₁)`. -/
theorem turn_antisymmetry (p1 p2 p3 : Pt) :
    turn p1 p2 p3 = -turn p2 p1 p3 ∧ turn p1 p2 p3 = -turn p1 p3 p2 := by
  constructor
  · have h : cross p1 p2 p3 = -cross p2 p1 p3 := by unfold cross; ring
    rw [turn, turn, h, sgn_neg]
  · have h : cross p1 p2 p3 = -cross p1 p3 p2 := by unfold cross; ring
    rw [turn, turn, h, sgn_neg]

/-! ## Claim C8 : symmetry of segment intersection predicates -/

/-- C8: For all line segments u, v, `u.intersects(v)` holds iff
`v.intersects(u)` holds, and `u.properly_intersects(v)` holds iff
`v.properly_intersects(u)` holds. -/
theorem seg_intersects_symm (u v : Seg) :
    segIntersects u v = segIntersects v u ∧
    segProperlyIntersects u v = segProperlyIntersects v u := by
  constructor
  · unfold segIntersects
    exact Bool.and_comm _ _
  · unfold segProperlyIntersects
    cases h1 : decide (turn u.a u.b v.a ≠ turn u.a u.b v.b) <;>
    cases h2 : decide (turn u.a u.b v.a ≠ 0) <;>
    cases h3 : decide (turn u.a u.b v.b ≠ 0) <;>
    cases h4 : decide (turn v.a v.b u.a ≠ turn v.a v.b u.b) <;>
    cases h5 : decide (turn v.a v.b u.a ≠ 0) <;>
    cases h6 : decide (turn v.a v.b u.b ≠ 0) <;> simp

/-! ## Claim C5 : parallel segments yield no intersection point -/

/-- C5: For every pair of line segments whose direction vectors are
parallel (the cross product `(b-a) x (d-c)` is zero, which includes all
collinear segments), `LineSegment.intersection` returns no intersection
point, even when the two collinear segments overlap. -/
theorem parallel_segments_no_intersection (a b c d : Pt)
    (h : (b.x - a.x) * (d.y - c.y) - (b.y - a.y) * (d.x - c.x) = 0) :
    segIntersection ⟨a, b⟩ ⟨c, d⟩ = none := by
  unfold segIntersection
  have hz : (b.x - a.x) * (c.y - d.y) - (b.y - a.y) * (c.x - d.x) = 0 := by
    linarith [h]
  simp [hz]

/-- Witness for C5 on two overlapping collinear segments. -/
theorem parallel_segments_no_intersection_witness :
    ((2 : ℚ) - 0) * (0 - 0) - (0 - 0) * ((3 : ℚ) - 1) = 0 ∧
    segIntersection ⟨⟨0, 0⟩, ⟨2, 0⟩⟩ ⟨⟨1, 0⟩, ⟨3, 0⟩⟩ = none :=
  ⟨by norm_num, parallel_segments_no_intersection ⟨0, 0⟩ ⟨2, 0⟩ ⟨1, 0⟩ ⟨3, 0⟩ (by norm_num)⟩

/-! ## Claim C10 : degenerate line construction -/

/-- C10: `Line(a, b)` raises the degenerated-case error exactly when the
two construction points are eps-equal (both coordinate differences
within 10⁻⁶); in particular there are distinct points a ≠ b for which
line construction fails even though the points are not coincident. -/
theorem line_degenerate_iff :
    (∀ a b : Pt, lineNew a b = .error .degeneratedCase ↔ ptEq a b = true) ∧
    (∃ a b : Pt, a ≠ b ∧ lineNew a b = .error .degeneratedCase) := by
  constructor
  · intro a b
    unfold lineNew
    by_cases h : ptEq a b = true
    · simp [h]
    · simp [h]
  · refine ⟨⟨0, 0⟩, ⟨1 / 10000000, 0⟩, ?_, ?_⟩
    · intro h
      have := congrArg Pt.x h
      norm_num at this
    · unfold lineNew
      rw [if_pos (by unfold ptEq eps; norm_num)]

/-! ## Claim C7 : a concave bounded funnel cannot be constructed -/

/-- C7: For all points cusp, first, second, boundary_a, boundary_b with
`Turn(cusp, first, second) = CW_TURN` (a concave triple), constructing
`BoundedFunnel(cusp, first, second, boundary_a, boundary_b)` raises the
bounded-funnel-concavity error, and no bounded funnel is produced. -/
theorem bounded_funnel_concave_fails (cusp first second ba bb : Pt)
    (h : turn cusp first second = -1) :
    boundedFunnelNew cusp first second ba bb = .error .boundedFunnelConcave := by
  unfold boundedFunnelNew
  simp [h]

/-- Witness for C7 at a concrete concave triple. -/
theorem bounded_funnel_concave_fails_witness :
    turn ⟨0, 0⟩ ⟨0, 1⟩ ⟨1, 0⟩ = -1 ∧
    boundedFunnelNew ⟨0, 0⟩ ⟨0, 1⟩ ⟨1, 0⟩ ⟨5, 5⟩ ⟨6, 5⟩ = .error .boundedFunnelConcave :=
  ⟨by norm_num [turn, cross, sgn],
   bounded_funnel_concave_fails ⟨0, 0⟩ ⟨0, 1⟩ ⟨1, 0⟩ ⟨5, 5⟩ ⟨6, 5⟩ (by norm_num [turn, cross, sgn])⟩

/-! ## Claim C4 : circumcircle of three non-collinear points -/

theorem cramer_on (b1 b2 : Bis) (hd : b1.u * b2.v - b2.u * b1.v ≠ 0) :
    b1.u * cramerX b1 b2 + b1.v * cramerY b1 b2 = b1.w ∧
    b2.u * cramerX b1 b2 + b2.v * cramerY b1 b2 = b2.w := by
  unfold cramerX cramerY
  constructor <;> (field_simp; ring)

theorem bis_on_eq_dist (p q z : Pt)
    (h : (bisector p q).u * z.x + (bisector p q).v * z.y = (bisector p q).w) :
    sqDist z p = sqDist z q := by
  unfold bisector at h
  by_cases hy : p.y = q.y
  · rw [if_pos hy] at h
    dsimp only at h
    have hx : z.x = (p.x + q.x) / 2 := by linarith
    unfold sqDist
    rw [hy, hx]
    ring
  · rw [if_neg hy] at h
    dsimp only at h
    unfold sqDist
    linear_combination -h

/-- C4: For all non-collinear points p₁, p₂, p₃ the constructor
`Circle(p₁, p₂, p₃)` succeeds, the resulting circle satisfies
`contains(pᵢ)` for each i with the squared distance from the centre to
each pᵢ equal to the squared radius, and every fourth point strictly
outside the circumscribing disk is not contained. -/
theorem circle_three_points (a b c : Pt) (h : turn a b c ≠ 0) :
    ∃ k : PyCircle, circleFromThree a b c = .ok k ∧
      sqDist k.center a = k.radius2 ∧
      sqDist k.center b = k.radius2 ∧
      sqDist k.center c = k.radius2 ∧
      circleContains k a = true ∧
      circleContains k b = true ∧
      circleContains k c = true ∧
      ∀ p : Pt, k.radius2 < sqDist k.center p → circleContains k p = false := by
  have hcr : cross a b c ≠ 0 := by
    intro h0
    exact h (by rw [turn, h0]; simp [sgn])
  have hguard : ¬((bisector a b).v * (bisector a c).u = (bisector a b).u * (bisector a c).v) := by
    intro hg
    unfold bisector at hg
    by_cases hy1 : a.y = b.y <;> by_cases hy2 : a.y = c.y
    · exact hcr (by unfold cross; rw [← hy1, ← hy2]; ring)
    · rw [if_pos hy1, if_neg hy2] at hg
      dsimp only at hg
      exact hy2 (by linarith)
    · rw [if_neg hy1, if_pos hy2] at hg
      dsimp only at hg
      exact hy1 (by linarith)
    · rw [if_neg hy1, if_neg hy2] at hg
      dsimp only at hg
      exact hcr (by unfold cross; linear_combination (-1 / 4 : ℚ) * hg)
  have hd : (bisector a b).u * (bisector a c).v - (bisector a c).u * (bisector a b).v ≠ 0 := by
    intro h0
    exact hguard (by linear_combination -h0)
  obtain ⟨e1, e2⟩ := cramer_on (bisector a b) (bisector a c) hd
  have hb : sqDist ⟨cramerX (bisector a b) (bisector a c), cramerY (bisector a b) (bisector a c)⟩ a
      = sqDist ⟨cramerX (bisector a b) (bisector a c), cramerY (bisector a b) (bisector a c)⟩ b :=
    bis_on_eq_dist a b _ e1
  have hc : sqDist ⟨cramerX (bisector a b) (bisector a c), cramerY (bisector a b) (bisector a c)⟩ a
      = sqDist ⟨cramerX (bisector a b) (bisector a c), cramerY (bisector a b) (bisector a c)⟩ c :=
    bis_on_eq_dist a c _ e2
  unfold circleFromThree
  rw [if_neg hguard]
  refine ⟨_, rfl, rfl, hb.symm, hc.symm, ?_, ?_, ?_, ?_⟩
  · simp [circleContains]
  · simp [circleContains, ← hb]
  · simp [circleContains, ← hc]
  · intro p hp
    exact decide_eq_false (not_le.mpr hp)

/-! ## Claim C9 : the funnel's cached type and rays stay consistent -/

theorem funnel_cache_invariant (F : PyFunnel) (h : FunnelReachable F) :
    F.ftype = turn F.cusp F.first F.second ∧
    (F.firstRayC = none ∨ F.firstRayC = some ⟨F.cusp, F.first⟩) ∧
    (F.secondRayC = none ∨ F.secondRayC = some ⟨F.cusp, F.second⟩) := by
  induction h with
  | mk cusp first second => exact ⟨rfl, Or.inl rfl, Or.inl rfl⟩
  | setFirst v _ ih =>
      refine ⟨rfl, Or.inl rfl, ?_⟩
      rcases ih.2.2 with h2 | h2
      · exact Or.inl h2
      · exact Or.inr h2
  | setCusp v _ ih => exact ⟨rfl, Or.inl rfl, Or.inl rfl⟩
  | setSecond v _ ih =>
      refine ⟨rfl, ?_, Or.inl rfl⟩
      rcases ih.2.1 with h1 | h1
      · exact Or.inl h1
      · exact Or.inr h1
  | readFirstRay _ ih =>
      rename_i F' _
      unfold funnelFirstRay
      cases hc : F'.firstRayC with
      | some r => simpa [hc] using ih
      | none =>
          refine ⟨ih.1, Or.inr rfl, ?_⟩
          rcases ih.2.2 with h2 | h2
          · exact Or.inl h2
          · exact Or.inr h2
  | readSecondRay _ ih =>
      rename_i F' _
      unfold funnelSecondRay
      cases hc : F'.secondRayC with
      | some r => simpa [hc] using ih
      | none =>
          refine ⟨ih.1, ?_, Or.inr rfl⟩
          rcases ih.2.1 with h1 | h1
          · exact Or.inl h1
          · exact Or.inr h1

/-- C9: For every funnel reachable through construction, the point
setters and the ray property reads, the stored classification `_type`
equals `Turn(cusp, first, second)` for the current points, and the
`first_ray` / `second_ray` properties return `Ray(cusp, first)` and
`Ray(cusp, second)` respectively. -/
theorem funnel_invariant (F : PyFunnel) (h : FunnelReachable F) :
    F.ftype = turn F.cusp F.first F.second ∧
    (funnelFirstRay F).1 = ⟨F.cusp, F.first⟩ ∧
    (funnelSecondRay F).1 = ⟨F.cusp, F.second⟩ := by
  obtain ⟨ht, h1, h2⟩ := funnel_cache_invariant F h
  refine ⟨ht, ?_, ?_⟩
  · unfold funnelFirstRay
    rcases h1 with h1 | h1 <;> simp [h1]
  · unfold funnelSecondRay
    rcases h2 with h2 | h2 <;> simp [h2]

/-- Witness for C9 at a concrete reachable funnel (built, then mutated,
then read). -/
theorem funnel_invariant_witness :
    FunnelReachable (funnelSetFirst (funnelMk ⟨0, 0⟩ ⟨1, 0⟩ ⟨0, 1⟩) ⟨2, 1⟩) ∧
    ((funnelSetFirst (funnelMk ⟨0, 0⟩ ⟨1, 0⟩ ⟨0, 1⟩) ⟨2, 1⟩).ftype =
        turn (funnelSetFirst (funnelMk ⟨0, 0⟩ ⟨1, 0⟩ ⟨0, 1⟩) ⟨2, 1⟩).cusp
          (funnelSetFirst (funnelMk ⟨0, 0⟩ ⟨1, 0⟩ ⟨0, 1⟩) ⟨2, 1⟩).first
          (funnelSetFirst (funnelMk ⟨0, 0⟩ ⟨1, 0⟩ ⟨0, 1⟩) ⟨2, 1⟩).second ∧
      (funnelFirstRay (funnelSetFirst (funnelMk ⟨0, 0⟩ ⟨1, 0⟩ ⟨0, 1⟩) ⟨2, 1⟩)).1 =
        ⟨(funnelSetFirst (funnelMk ⟨0, 0⟩ ⟨1, 0⟩ ⟨0, 1⟩) ⟨2, 1⟩).cusp,
         (funnelSetFirst (funnelMk ⟨0, 0⟩ ⟨1, 0⟩ ⟨0, 1⟩) ⟨2, 1⟩).first⟩ ∧
      (funnelSecondRay (funnelSetFirst (funnelMk ⟨0, 0⟩ ⟨1, 0⟩ ⟨0, 1⟩) ⟨2, 1⟩)).1 =
        ⟨(funnelSetFirst (funnelMk ⟨0, 0⟩ ⟨1, 0⟩ ⟨0, 1⟩) ⟨2, 1⟩).cusp,
         (funnelSetFirst (funnelMk ⟨0, 0⟩ ⟨1, 0⟩ ⟨0, 1⟩) ⟨2, 1⟩).second⟩) :=
  ⟨FunnelReachable.setFirst ⟨2, 1⟩ (FunnelReachable.mk ⟨0, 0⟩ ⟨1, 0⟩ ⟨0, 1⟩),
   funnel_invariant _ (FunnelReachable.setFirst ⟨2, 1⟩ (FunnelReachable.mk ⟨0, 0⟩ ⟨1, 0⟩ ⟨0, 1⟩))⟩

/-! ## Claim C2 : trapezoid location and the general-position error -/

theorem feStep_error {P : List Pt} {p : Pt} {st : FEState} {i : Nat} {e : PyErr}
    (h : feStep P p st i = .error e) : e = .valueError := by
  unfold feStep at h
  dsimp only at h
  split_ifs at h
  simp_all

theorem feLoop_error {P : List Pt} {p : Pt} {e : PyErr} :
    ∀ (l : List Nat) (st : FEState), feLoop P p l st = .error e → e = .valueError := by
  intro l
  induction l with
  | nil => intro st h; simp [feLoop] at h
  | cons i rest ih =>
      intro st h
      unfold feLoop at h
      cases hs : feStep P p st i with
      | error e' =>
          rw [hs] at h
          cases h
          exact feStep_error hs
      | ok st' =>
          rw [hs] at h
          exact ih st' h

theorem feEdge_topNode (p curr nxt : Pt) (i : Nat) (st : FEState) :
    (feEdge p curr nxt i st).topNode = st.topNode := by
  unfold feEdge
  dsimp only
  split_ifs <;> rfl

theorem feEdge_botNode (p curr nxt : Pt) (i : Nat) (st : FEState) :
    (feEdge p curr nxt i st).botNode = st.botNode := by
  unfold feEdge
  dsimp only
  split_ifs <;> rfl

theorem feNode_topNode (p curr : Pt) (i : Nat) (st : FEState) :
    ((feNode p curr i st).topNode ≠ none ↔
      st.topNode ≠ none ∨ (p.x = curr.x ∧ p.y < curr.y)) := by
  unfold feNode
  split_ifs with hx h1 h2
  · have hny : ¬p.y < curr.y := not_lt.mpr (le_of_lt h1.1)
    simp [hny]
  · simp [hx, h2.1]
  · by_cases hy : p.y < curr.y
    · have hnb : nodeBetter curr.y st.topNode = false := by
        cases hb : nodeBetter curr.y st.topNode
        · rfl
        · exact absurd ⟨hy, hb⟩ h2
      cases ht : st.topNode with
      | none => rw [ht] at hnb; simp [nodeBetter] at hnb
      | some tn => simp [ht, hx, hy]
    · simp [hy]
  · simp [hx]

theorem feNode_botNode (p curr : Pt) (i : Nat) (st : FEState) :
    ((feNode p curr i st).botNode ≠ none ↔
      st.botNode ≠ none ∨ (p.x = curr.x ∧ curr.y < p.y)) := by
  unfold feNode
  split_ifs with hx h1 h2
  · simp [hx, h1.1]
  · have hny : ¬curr.y < p.y := not_lt.mpr (le_of_lt h2.1)
    simp [hny]
  · by_cases hy : curr.y < p.y
    · have hnb : nodeBetter curr.y st.botNode = false := by
        cases hb : nodeBetter curr.y st.botNode
        · rfl
        · exact absurd ⟨hy, hb⟩ h1
      cases ht : st.botNode with
      | none => rw [ht] at hnb; simp [nodeBetter] at hnb
      | some bn => simp [ht, hx, hy]
    · simp [hy]
  · simp [hx]

theorem skip_not_eq {x a b : ℚ} (h : x < min a b ∨ x > max a b) : ¬x = a := by
  intro he
  rcases h with h | h
  · rw [he] at h
    exact absurd h (not_lt.mpr (min_le_left a b))
  · rw [he] at h
    exact absurd h (not_lt.mpr (le_max_left a b))

theorem feStep_ok_topNode {P : List Pt} {p : Pt} {st st' : FEState} {i : Nat}
    (h : feStep P p st i = .ok st') :
    (st'.topNode ≠ none ↔
      st.topNode ≠ none ∨ (p.x = (pt P i).x ∧ p.y < (pt P i).y)) := by
  unfold feStep at h
  dsimp only at h
  split_ifs at h with hskip hvert
  · cases h
    have := skip_not_eq hskip
    simp [this]
  · obtain rfl : feEdge p (pt P i) (pt P (i + 1)) i (feNode p (pt P i) i st) = st' := by
      injection h
    rw [feEdge_topNode]
    exact feNode_topNode p (pt P i) i st

theorem feStep_ok_botNode {P : List Pt} {p : Pt} {st st' : FEState} {i : Nat}
    (h : feStep P p st i = .ok st') :
    (st'.botNode ≠ none ↔
      st.botNode ≠ none ∨ (p.x = (pt P i).x ∧ (pt P i).y < p.y)) := by
  unfold feStep at h
  dsimp only at h
  split_ifs at h with hskip hvert
  · cases h
    have := skip_not_eq hskip
    simp [this]
  · obtain rfl : feEdge p (pt P i) (pt P (i + 1)) i (feNode p (pt P i) i st) = st' := by
      injection h
    rw [feEdge_botNode]
    exact feNode_botNode p (pt P i) i st

theorem feStep_error_iff {P : List Pt} {p : Pt} {st : FEState} {i : Nat} :
    (∃ e, feStep P p st i = .error e) ↔ vertAt P p i := by
  unfold feStep vertAt
  constructor
  · rintro ⟨e, he⟩
    dsimp only at he
    split_ifs at he with hskip hvert
    refine ⟨hvert, ?_⟩
    by_contra hne
    rcases not_or.mp hskip with ⟨h1, h2⟩
    rw [← hvert, min_self] at h1
    rw [← hvert, max_self] at h2
    push_neg at h1 h2
    exact hne (le_antisymm h2 h1)
  · rintro ⟨hvert, hpx⟩
    have hskip : ¬(p.x < min (pt P i).x (pt P (i + 1)).x ∨
        p.x > max (pt P i).x (pt P (i + 1)).x) := by
      rw [← hvert, min_self, max_self]
      push_neg
      exact ⟨le_of_eq hpx.symm, le_of_eq hpx⟩
    dsimp only
    rw [if_neg hskip, if_pos hvert]
    exact ⟨_, rfl⟩

theorem feLoop_ok_iff {P : List Pt} {p : Pt} :
    ∀ (l : List Nat) (st : FEState),
      (∃ st', feLoop P p l st = .ok st') ↔ ∀ i ∈ l, ¬vertAt P p i := by
  intro l
  induction l with
  | nil => intro st; simp [feLoop]
  | cons i rest ih =>
      intro st
      constructor
      · rintro ⟨st', h⟩
        unfold feLoop at h
        cases hs : feStep P p st i with
        | error e => rw [hs] at h; cases h
        | ok st1 =>
            rw [hs] at h
            intro j hj
            rcases List.mem_cons.mp hj with rfl | hj
            · intro hv
              obtain ⟨e, he⟩ := feStep_error_iff.mpr hv
              rw [hs] at he; cases he
            · exact (ih st1).mp ⟨st', h⟩ j hj
      · intro hall
        have hnv : ¬vertAt P p i := hall i (List.mem_cons_self i rest)
        cases hs : feStep P p st i with
        | error e => exact absurd (feStep_error_iff.mp ⟨e, hs⟩) hnv
        | ok st1 =>
            obtain ⟨st', h⟩ := (ih st1).mpr (fun j hj => hall j (List.mem_cons_of_mem i hj))
            exact ⟨st', by unfold feLoop; rw [hs]; exact h⟩

theorem feLoop_ok_topNode {P : List Pt} {p : Pt} :
    ∀ (l : List Nat) (st st' : FEState), feLoop P p l st = .ok st' →
      (st'.topNode ≠ none ↔
        st.topNode ≠ none ∨ ∃ i ∈ l, p.x = (pt P i).x ∧ p.y < (pt P i).y) := by
  intro l
  induction l with
  | nil =>
      intro st st' h
      unfold feLoop at h
      cases h
      simp
  | cons i rest ih =>
      intro st st' h
      unfold feLoop at h
      cases hs : feStep P p st i with
      | error e => rw [hs] at h; cases h
      | ok st1 =>
          rw [hs] at h
          rw [ih st1 st' h, feStep_ok_topNode hs]
          constructor
          · rintro ((h0 | h0) | ⟨j, hj, hjx⟩)
            · exact Or.inl h0
            · exact Or.inr ⟨i, List.mem_cons_self i rest, h0⟩
            · exact Or.inr ⟨j, List.mem_cons_of_mem i hj, hjx⟩
          · rintro (h0 | ⟨j, hj, hjx⟩)
            · exact Or.inl (Or.inl h0)
            · rcases List.mem_cons.mp hj with rfl | hj
              · exact Or.inl (Or.inr hjx)
              · exact Or.inr ⟨j, hj, hjx⟩

theorem feLoop_ok_botNode {P : List Pt} {p : Pt} :
    ∀ (l : List Nat) (st st' : FEState), feLoop P p l st = .ok st' →
      (st'.botNode ≠ none ↔
        st.botNode ≠ none ∨ ∃ i ∈ l, p.x = (pt P i).x ∧ (pt P i).y < p.y) := by
  intro l
  induction l with
  | nil =>
      intro st st' h
      unfold feLoop at h
      cases h
      simp
  | cons i rest ih =>
      intro st st' h
      unfold feLoop at h
      cases hs : feStep P p st i with
      | error e => rw [hs] at h; cases h
      | ok st1 =>
          rw [hs] at h
          rw [ih st1 st' h, feStep_ok_botNode hs]
          constructor
          · rintro ((h0 | h0) | ⟨j, hj, hjx⟩)
            · exact Or.inl h0
            · exact Or.inr ⟨i, List.mem_cons_self i rest, h0⟩
            · exact Or.inr ⟨j, List.mem_cons_of_mem i hj, hjx⟩
          · rintro (h0 | ⟨j, hj, hjx⟩)
            · exact Or.inl (Or.inl h0)
            · rcases List.mem_cons.mp hj with rfl | hj
              · exact Or.inl (Or.inr hjx)
              · exact Or.inr ⟨j, hj, hjx⟩

theorem lineYv_error {l : Ln} {x : ℚ} {e : PyErr} (h : lineYv l x = .error e) :
    e = .valueError := by
  unfold lineYv lineYValue at h
  split_ifs at h
  exact (Except.error.inj h).symm

theorem lineNew_error {a b : Pt} {e : PyErr} (h : lineNew a b = .error e) :
    e = .degeneratedCase := by
  unfold lineNew at h
  split_ifs at h
  exact (Except.error.inj h).symm

theorem cornerY_error {v : Pt} {l : Ln} {x : ℚ} {e : PyErr} (h : cornerY v l x = .error e) :
    e = .valueError := by
  unfold cornerY at h
  split_ifs at h
  exact lineYv_error h

theorem scanYCheck_error {topL botL : Ln} {c : Pt} {e : PyErr}
    (h : scanYCheck topL botL c = .error e) : e = .valueError := by
  unfold scanYCheck at h
  cases hb : lineYv botL c.x with
  | error eb =>
      rw [hb] at h
      dsimp only at h
      cases h
      exact lineYv_error hb
  | ok yb =>
      rw [hb] at h
      dsimp only at h
      split_ifs at h
      cases ht : lineYv topL c.x with
      | error et =>
          rw [ht] at h
          dsimp only at h
          cases h
          exact lineYv_error ht
      | ok yt =>
          rw [ht] at h
          simp at h

theorem scanStep_error {P : List Pt} {p : Pt} {topL botL : Ln} {st : ScanSt} {i : Nat}
    {e : PyErr} (h : scanStep P p topL botL st i = .error e) : e = .valueError := by
  unfold scanStep at h
  dsimp only at h
  cases h1 : (if condL P p st i then scanYCheck topL botL (pt P i) else .ok false) with
  | error e1 =>
      rw [h1] at h
      cases h
      split_ifs at h1
      exact scanYCheck_error h1
  | ok okL =>
      rw [h1] at h
      dsimp only at h
      cases h2 : (if condR P p
          (if okL = true then
            { st with left := pt P i, topLeftIx := none, botLeftIx := none } else st) i then
          scanYCheck topL botL (pt P i) else .ok false) with
      | error e2 =>
          rw [h2] at h
          cases h
          split_ifs at h2 <;> exact scanYCheck_error h2
      | ok okR =>
          rw [h2] at h
          simp at h

theorem scanLoop_error {P : List Pt} {p : Pt} {topL botL : Ln} {e : PyErr} :
    ∀ (l : List Nat) (st : ScanSt), scanLoop P p topL botL l st = .error e →
      e = .valueError := by
  intro l
  induction l with
  | nil => intro st h; simp [scanLoop] at h
  | cons i rest ih =>
      intro st h
      unfold scanLoop at h
      cases hs : scanStep P p topL botL st i with
      | error e' =>
          rw [hs] at h
          cases h
          exact scanStep_error hs
      | ok st' =>
          rw [hs] at h
          exact ih st' h

theorem trapAssemble_not_nigp (P : List Pt) (p : Pt) (te be : Nat) (st0 : ScanSt) :
    trapAssemble P p te be st0 ≠ .error .notInGeneralPosition := by
  intro h
  unfold trapAssemble at h
  cases hl1 : lineNew (pt P (te + 1)) (pt P te) with
  | error e1 =>
      rw [hl1] at h
      cases h
      exact absurd (lineNew_error hl1) (by simp)
  | ok topL =>
      rw [hl1] at h
      dsimp only at h
      cases hl2 : lineNew (pt P be) (pt P (be + 1)) with
      | error e2 =>
          rw [hl2] at h
          cases h
          exact absurd (lineNew_error hl2) (by simp)
      | ok botL =>
          rw [hl2] at h
          dsimp only at h
          cases hsc : scanLoop P p topL botL (List.range P.length) st0 with
          | error e3 =>
              rw [hsc] at h
              cases h
              exact absurd (scanLoop_error _ _ hsc) (by simp)
          | ok st =>
              rw [hsc] at h
              dsimp only at h
              cases hc1 : cornerY (pt P (te + 1)) topL st.left.x with
              | error e4 =>
                  rw [hc1] at h
                  cases h
                  exact absurd (cornerY_error hc1) (by simp)
              | ok y1 =>
                  rw [hc1] at h
                  dsimp only at h
                  cases hc2 : cornerY (pt P te) topL st.right.x with
                  | error e5 =>
                      rw [hc2] at h
                      cases h
                      exact absurd (cornerY_error hc2) (by simp)
                  | ok y2 =>
                      rw [hc2] at h
                      dsimp only at h
                      cases hc3 : cornerY (pt P be) botL st.left.x with
                      | error e6 =>
                          rw [hc3] at h
                          cases h
                          exact absurd (cornerY_error hc3) (by simp)
                      | ok y3 =>
                          rw [hc3] at h
                          dsimp only at h
                          cases hc4 : cornerY (pt P (be + 1)) botL st.right.x with
                          | error e7 =>
                              rw [hc4] at h
                              cases h
                              exact absurd (cornerY_error hc4) (by simp)
                          | ok y4 =>
                              rw [hc4] at h
                              simp at h

theorem trapRest_not_nigp (P : List Pt) (p : Pt) (te be : Nat) :
    trapRest P p te be ≠ .error .notInGeneralPosition := by
  intro h
  unfold trapRest at h
  dsimp only at h
  split_ifs at h <;>
    first
      | exact trapAssemble_not_nigp _ _ _ _ _ h
      | simp_all

theorem feFinish_not_nigp (P : List Pt) (p : Pt) (st : FEState) :
    feFinish P p st ≠ .error .notInGeneralPosition := by
  intro h
  unfold feFinish at h
  dsimp only at h
  split at h
  · split_ifs at h <;> simp_all
  · simp at h

theorem findEdges_nigp_iff (P : List Pt) (p : Pt) :
    findEdges P p = .error .notInGeneralPosition ↔
      ((∀ i, i < P.length → ¬vertAt P p i) ∧
       (∃ i, i < P.length ∧ p.x = (pt P i).x ∧ p.y < (pt P i).y) ∧
       (∃ i, i < P.length ∧ p.x = (pt P i).x ∧ (pt P i).y < p.y)) := by
  unfold findEdges
  cases hl : feLoop P p (List.range P.length) feInit with
  | error e =>
      have he : e = .valueError := feLoop_error _ _ hl
      subst he
      constructor
      · intro hcontra; simp at hcontra
      · rintro ⟨h1, h2, h3⟩
        obtain ⟨st', hst⟩ := (feLoop_ok_iff (List.range P.length) feInit).mpr
          (fun i hi => h1 i (List.mem_range.mp hi))
        rw [hl] at hst
        cases hst
  | ok st =>
      dsimp only
      have htop := feLoop_ok_topNode (List.range P.length) feInit st hl
      have hbot := feLoop_ok_botNode (List.range P.length) feInit st hl
      simp only [feInit] at htop hbot
      by_cases hcond : st.topNode ≠ none ∧ st.botNode ≠ none
      · rw [if_pos hcond]
        constructor
        · intro _
          refine ⟨fun i hi => (feLoop_ok_iff (List.range P.length) feInit).mp ⟨st, hl⟩ i
            (List.mem_range.mpr hi), ?_, ?_⟩
          · obtain ⟨i, hi, hix⟩ := by
              have := htop.mp hcond.1
              simpa using this
            exact ⟨i, hi, hix⟩
          · obtain ⟨i, hi, hix⟩ := by
              have := hbot.mp hcond.2
              simpa using this
            exact ⟨i, hi, hix⟩
        · intro _; rfl
      · rw [if_neg hcond]
        constructor
        · intro hcontra
          exact absurd hcontra (feFinish_not_nigp P p st)
        · rintro ⟨h1, h2, h3⟩
          exfalso
          apply hcond
          constructor
          · apply htop.mpr
            obtain ⟨i, hi, hix⟩ := h2
            right
            exact ⟨i, List.mem_range.mpr hi, hix⟩
          · apply hbot.mpr
            obtain ⟨i, hi, hix⟩ := h3
            right
            exact ⟨i, List.mem_range.mpr hi, hix⟩

/-- C2 (amended): `Polygon.trapezoid(p)` raises the general-position
error exactly when the polygon has no vertical edge at `x = p.x` (which
would raise a `ValueError` first) and has vertices sharing p's
x-coordinate both strictly above and strictly below p. -/
theorem trapezoid_general_position (P : List Pt) (p : Pt) :
    trapezoidFn P p = .error .notInGeneralPosition ↔
      ((∀ i, i < P.length → ¬vertAt P p i) ∧
       (∃ i, i < P.length ∧ p.x = (pt P i).x ∧ p.y < (pt P i).y) ∧
       (∃ i, i < P.length ∧ p.x = (pt P i).x ∧ (pt P i).y < p.y)) := by
  rw [← findEdges_nigp_iff]
  unfold trapezoidFn
  cases hf : findEdges P p with
  | error e => simp [hf]
  | ok o =>
      cases o with
      | none => simp [hf]
      | some tb =>
          obtain ⟨te, be⟩ := tb
          simp only [hf]
          constructor
          · intro h
            exact absurd h (trapRest_not_nigp P p te be)
          · intro h
            simp at h

set_option maxHeartbeats 1600000 in
/-- C2 counterexample: in `pentXPoly` the vertices 1 = (6,0) and
3 = (6,4) both share the x-coordinate of p = (6,-1), yet
`Polygon.trapezoid(p)` raises no general-position error (it returns
null); and for the C-shaped polygon the pocket point (7,5), which lies
outside the polygon, is assigned a trapezoid instead of null. -/
theorem trapezoid_general_position_cex :
    ((pt pentXPoly 1).x = (6 : ℚ) ∧ (pt pentXPoly 3).x = (6 : ℚ) ∧
      (1 : Nat) ≠ 3 ∧ (6 : ℚ) = (Pt.mk 6 (-1)).x) ∧
    trapezoidFn pentXPoly ⟨6, -1⟩ = .ok none ∧
    trapezoidFn cShapePoly ⟨7, 5⟩ =
      .ok (some ⟨0, 10, 10, 10, 0, 0, 4, 6, some 5, some 6, some 4, some 7⟩) := by
  refine ⟨⟨by norm_num [pt, pentXPoly], by norm_num [pt, pentXPoly], by norm_num, rfl⟩, ?_, ?_⟩
  · norm_num [trapezoidFn, findEdges, feFinish, feLoop, feStep, feNode, feEdge, feInit,
      pt, pentXPoly, nodeBetter, distBetter, prevIx, List.range_succ, turn, cross, sgn]
  · norm_num [trapezoidFn, findEdges, feFinish, feLoop, feStep, feNode, feEdge, feInit,
      pt, cShapePoly, nodeBetter, distBetter, prevIx, List.range_succ, trapRest,
      trapAssemble, scanLoop, scanStep, scanYCheck, condL, condR, lineNew, lineYv,
      lineYValue, cornerY, isRightOf, leftOf, ptEq, eps, turn, cross, sgn]

/-! ## Claim C1 : queries with a point outside the polygon -/

/-- C1 (amended): when `s ≠ t` (under point equality) and the locate
step reports s or t as outside (returns null), the Delaunay and
Lee-Preparata engines emit an empty sequence; the trapezoid and
make-step engines instead raise an `AttributeError` by reading `x_left`
of the null trapezoid, both when the s lookup and when the t lookup is
null. -/
theorem out_of_polygon_query :
    (∀ (T : Type) [DecidableEq T] (locate : Pt → Option T) (s t : Pt),
        ptEq s t = false → locate s = none ∨ locate t = none →
        dtPrelude locate s t = .path [] ∧ lpPrelude locate s t = .path []) ∧
    (∀ (P : List Pt) (s t : Pt) (tT0 : Option Trap),
        ptEq s t = false → trapezoidFn P s = .ok none → trapezoidFn P t = .ok tT0 →
        trPrelude P s t = .error .attributeError ∧
        msPrelude P s t = .error .attributeError) ∧
    (∀ (P : List Pt) (s t : Pt) (Ts : Trap),
        ptEq s t = false → trapezoidFn P s = .ok (some Ts) →
        ¬(s.x = Ts.xLeft ∨ s.x = Ts.xRight) → trapezoidFn P t = .ok none →
        trPrelude P s t = .error .attributeError ∧
        msPrelude P s t = .error .attributeError) := by
  refine ⟨?_, ?_, ?_⟩
  · intro T _ locate s t hne hnone
    constructor <;>
      · first
          | unfold dtPrelude
          | unfold lpPrelude
        rw [if_neg (by simp [hne])]
        rcases hnone with h | h
        · rw [h]
        · rw [h]
          cases locate s <;> rfl
  · intro P s t tT0 hne hs ht
    constructor <;>
      · first
          | unfold trPrelude
          | unfold msPrelude
        simp [hne, hs, ht, shiftStep]
  · intro P s t Ts hne hs hsx ht
    constructor <;>
      · first
          | unfold trPrelude
          | unfold msPrelude
        simp [hne, hs, ht, shiftStep, hsx]

/-- Witness for C1 (amended) at concrete inputs: an abstract locate
function that fails, and the S1 triangle with an outside point on either
side of the query. -/
theorem out_of_polygon_query_witness :
    (ptEq ⟨0, 0⟩ ⟨1, 1⟩ = false ∧
      dtPrelude (fun _ => (none : Option Unit)) ⟨0, 0⟩ ⟨1, 1⟩ = .path [] ∧
      lpPrelude (fun _ => (none : Option Unit)) ⟨0, 0⟩ ⟨1, 1⟩ = .path []) ∧
    (trapezoidFn triPoly ⟨-1, -1⟩ = .ok none ∧
      trPrelude triPoly ⟨-1, -1⟩ ⟨1, 1⟩ = .error .attributeError ∧
      msPrelude triPoly ⟨-1, -1⟩ ⟨1, 1⟩ = .error .attributeError) ∧
    (trapezoidFn triPoly ⟨1, 1⟩ = .ok (some triTrap) ∧
      trPrelude triPoly ⟨1, 1⟩ ⟨-1, -1⟩ = .error .attributeError ∧
      msPrelude triPoly ⟨1, 1⟩ ⟨-1, -1⟩ = .error .attributeError) := by
  have hne : ptEq (Pt.mk 0 0) ⟨1, 1⟩ = false := by norm_num [ptEq, eps]
  have hne2 : ptEq (Pt.mk (-1) (-1)) ⟨1, 1⟩ = false := by norm_num [ptEq, eps]
  have hne3 : ptEq (Pt.mk 1 1) ⟨-1, -1⟩ = false := by norm_num [ptEq, eps]
  have hout : trapezoidFn triPoly ⟨-1, -1⟩ = .ok none := by
    norm_num [trapezoidFn, findEdges, feFinish, feLoop, feStep, feNode, feEdge, feInit,
      pt, triPoly, nodeBetter, distBetter, prevIx, List.range_succ, turn, cross, sgn]
  have hin : trapezoidFn triPoly ⟨1, 1⟩ = .ok (some triTrap) := by
    norm_num [trapezoidFn, findEdges, feFinish, feLoop, feStep, feNode, feEdge, feInit,
      pt, triPoly, triTrap, nodeBetter, distBetter, prevIx, List.range_succ, trapRest,
      trapAssemble, scanLoop, scanStep, scanYCheck, condL, condR, lineNew, lineYv,
      lineYValue, cornerY, isRightOf, leftOf, ptEq, eps, turn, cross, sgn]
  refine ⟨⟨hne, (out_of_polygon_query.1 Unit (fun _ => none) ⟨0, 0⟩ ⟨1, 1⟩ hne
      (Or.inl rfl)).1, (out_of_polygon_query.1 Unit (fun _ => none) ⟨0, 0⟩ ⟨1, 1⟩ hne
      (Or.inl rfl)).2⟩, ⟨hout, ?_, ?_⟩, ⟨hin, ?_, ?_⟩⟩
  · exact (out_of_polygon_query.2.1 triPoly ⟨-1, -1⟩ ⟨1, 1⟩ (some triTrap) hne2 hout hin).1
  · exact (out_of_polygon_query.2.1 triPoly ⟨-1, -1⟩ ⟨1, 1⟩ (some triTrap) hne2 hout hin).2
  · exact (out_of_polygon_query.2.2 triPoly ⟨1, 1⟩ ⟨-1, -1⟩ triTrap hne3 hin
      (by norm_num [triTrap]) hout).1
  · exact (out_of_polygon_query.2.2 triPoly ⟨1, 1⟩ ⟨-1, -1⟩ triTrap hne3 hin
      (by norm_num [triTrap]) hout).2

/-- C1 counterexample: on the S1 triangle with s = (-1,-1) outside the
polygon and t = (1,1) inside, the trapezoid and make-step engines raise
an `AttributeError` instead of emitting an empty sequence. -/
theorem out_of_polygon_query_cex :
    trPrelude triPoly ⟨-1, -1⟩ ⟨1, 1⟩ = .error .attributeError ∧
    msPrelude triPoly ⟨-1, -1⟩ ⟨1, 1⟩ = .error .attributeError := by
  constructor <;>
    norm_num [trPrelude, msPrelude, shiftStep, optTrapEqB, trapEqB,
      trapezoidFn, findEdges, feFinish, feLoop, feStep, feNode, feEdge, feInit,
      pt, triPoly, nodeBetter, distBetter, prevIx, List.range_succ, trapRest,
      trapAssemble, scanLoop, scanStep, scanYCheck, condL, condR, lineNew, lineYv,
      lineYValue, cornerY, isRightOf, leftOf, ptEq, eps, turn, cross, sgn]

/-! ## Claim C3 : trivial cases of the engines -/

/-- C3: for every engine, `s == t` (point equality within eps) yields
the single point s; and when `s ≠ t` but both are located in the same
cell (the same triangle for the Delaunay / Lee-Preparata engines, the
same trapezoid — after the engine's own boundary shift — for the
trapezoid / make-step engines), the output is exactly `[s, t]`. -/
theorem trivial_and_same_cell :
    (∀ (T : Type) [DecidableEq T] (locate : Pt → Option T) (s t : Pt),
        ptEq s t = true →
        dtPrelude locate s t = .path [s] ∧ lpPrelude locate s t = .path [s]) ∧
    (∀ (P : List Pt) (s t : Pt), ptEq s t = true →
        trPrelude P s t = .ok (.path [s]) ∧ msPrelude P s t = .ok (.path [s])) ∧
    (∀ (T : Type) [DecidableEq T] (locate : Pt → Option T) (s t : Pt) (c : T),
        ptEq s t = false → locate s = some c → locate t = some c →
        dtPrelude locate s t = .path [s, t] ∧ lpPrelude locate s t = .path [s, t]) ∧
    (∀ (P : List Pt) (s t s' t' : Pt) (sT0 tT0 sT tT : Option Trap),
        ptEq s t = false →
        trapezoidFn P s = .ok sT0 → trapezoidFn P t = .ok tT0 →
        shiftStep P s sT0 = .ok (s', sT) → shiftStep P t tT0 = .ok (t', tT) →
        optTrapEqB sT tT = true →
        trPrelude P s t = .ok (.path [s, t]) ∧ msPrelude P s t = .ok (.path [s, t])) := by
  refine ⟨?_, ?_, ?_, ?_⟩
  · intro T _ locate s t heq
    constructor <;>
      · first
          | unfold dtPrelude
          | unfold lpPrelude
        rw [if_pos heq]
  · intro P s t heq
    constructor <;>
      · first
          | unfold trPrelude
          | unfold msPrelude
        rw [if_pos heq]
  · intro T _ locate s t c hne hls hlt
    constructor <;>
      · first
          | unfold dtPrelude
          | unfold lpPrelude
        rw [if_neg (by simp [hne]), hls, hlt]
        dsimp only
        rw [if_pos rfl]
  · intro P s t s' t' sT0 tT0 sT tT hne hs ht hss hst hopt
    constructor <;>
      · first
          | unfold trPrelude
          | unfold msPrelude
        rw [if_neg (by simp [hne]), hs, ht]
        dsimp only
        rw [hss, hst]
        dsimp only
        rw [if_pos hopt]

/-- Witness for C3 at concrete inputs: equal points, an abstract
same-cell locate, and the S1 triangle with two interior points in the
same trapezoid. -/
theorem trivial_and_same_cell_witness :
    (ptEq ⟨1, 1⟩ ⟨1, 1⟩ = true ∧
      dtPrelude (fun _ => (some 0 : Option Nat)) ⟨1, 1⟩ ⟨1, 1⟩ = .path [⟨1, 1⟩] ∧
      trPrelude triPoly ⟨1, 1⟩ ⟨1, 1⟩ = .ok (.path [⟨1, 1⟩])) ∧
    (ptEq ⟨0, 0⟩ ⟨1, 1⟩ = false ∧
      dtPrelude (fun _ => (some 0 : Option Nat)) ⟨0, 0⟩ ⟨1, 1⟩ = .path [⟨0, 0⟩, ⟨1, 1⟩] ∧
      lpPrelude (fun _ => (some 0 : Option Nat)) ⟨0, 0⟩ ⟨1, 1⟩ = .path [⟨0, 0⟩, ⟨1, 1⟩]) ∧
    (trapezoidFn triPoly ⟨1, 1⟩ = .ok (some triTrap) ∧
      trapezoidFn triPoly ⟨2, 3⟩ = .ok (some triTrap) ∧
      trPrelude triPoly ⟨1, 1⟩ ⟨2, 3⟩ = .ok (.path [⟨1, 1⟩, ⟨2, 3⟩]) ∧
      msPrelude triPoly ⟨1, 1⟩ ⟨2, 3⟩ = .ok (.path [⟨1, 1⟩, ⟨2, 3⟩])) := by
  have heq : ptEq (Pt.mk 1 1) ⟨1, 1⟩ = true := by norm_num [ptEq, eps]
  have hne : ptEq (Pt.mk 0 0) ⟨1, 1⟩ = false := by norm_num [ptEq, eps]
  have hne2 : ptEq (Pt.mk 1 1) ⟨2, 3⟩ = false := by norm_num [ptEq, eps]
  have hin1 : trapezoidFn triPoly ⟨1, 1⟩ = .ok (some triTrap) := by
    norm_num [trapezoidFn, findEdges, feFinish, feLoop, feStep, feNode, feEdge, feInit,
      pt, triPoly, triTrap, nodeBetter, distBetter, prevIx, List.range_succ, trapRest,
      trapAssemble, scanLoop, scanStep, scanYCheck, condL, condR, lineNew, lineYv,
      lineYValue, cornerY, isRightOf, leftOf, ptEq, eps, turn, cross, sgn]
  have hin2 : trapezoidFn triPoly ⟨2, 3⟩ = .ok (some triTrap) := by
    norm_num [trapezoidFn, findEdges, feFinish, feLoop, feStep, feNode, feEdge, feInit,
      pt, triPoly, triTrap, nodeBetter, distBetter, prevIx, List.range_succ, trapRest,
      trapAssemble, scanLoop, scanStep, scanYCheck, condL, condR, lineNew, lineYv,
      lineYValue, cornerY, isRightOf, leftOf, ptEq, eps, turn, cross, sgn]
  have hsh1 : shiftStep triPoly ⟨1, 1⟩ (some triTrap) = .ok (⟨1, 1⟩, some triTrap) := by
    norm_num [shiftStep, triTrap]
  have hsh2 : shiftStep triPoly ⟨2, 3⟩ (some triTrap) = .ok (⟨2, 3⟩, some triTrap) := by
    norm_num [shiftStep, triTrap]
  have hopt : optTrapEqB (some triTrap) (some triTrap) = true := by
    norm_num [optTrapEqB, trapEqB]
  refine ⟨⟨heq, (trivial_and_same_cell.1 Nat (fun _ => some 0) ⟨1, 1⟩ ⟨1, 1⟩ heq).1,
      (trivial_and_same_cell.2.1 triPoly ⟨1, 1⟩ ⟨1, 1⟩ heq).1⟩,
    ⟨hne, (trivial_and_same_cell.2.2.1 Nat (fun _ => some 0) ⟨0, 0⟩ ⟨1, 1⟩ 0 hne rfl rfl).1,
      (trivial_and_same_cell.2.2.1 Nat (fun _ => some 0) ⟨0, 0⟩ ⟨1, 1⟩ 0 hne rfl rfl).2⟩,
    hin1, hin2,
    (trivial_and_same_cell.2.2.2 triPoly ⟨1, 1⟩ ⟨2, 3⟩ ⟨1, 1⟩ ⟨2, 3⟩ (some triTrap)
      (some triTrap) (some triTrap) (some triTrap) hne2 hin1 hin2 hsh1 hsh2 hopt).1,
    (trivial_and_same_cell.2.2.2 triPoly ⟨1, 1⟩ ⟨2, 3⟩ ⟨1, 1⟩ ⟨2, 3⟩ (some triTrap)
      (some triTrap) (some triTrap) (some triTrap) hne2 hin1 hin2 hsh1 hsh2 hopt).2⟩

/-- Witness for C4 at a concrete non-collinear triple. -/
theorem circle_three_points_witness :
    turn ⟨0, 0⟩ ⟨2, 0⟩ ⟨0, 2⟩ ≠ 0 ∧
    (∃ k : PyCircle, circleFromThree ⟨0, 0⟩ ⟨2, 0⟩ ⟨0, 2⟩ = .ok k ∧
      sqDist k.center ⟨0, 0⟩ = k.radius2 ∧
      sqDist k.center ⟨2, 0⟩ = k.radius2 ∧
      sqDist k.center ⟨0, 2⟩ = k.radius2 ∧
      circleContains k ⟨0, 0⟩ = true ∧
      circleContains k ⟨2, 0⟩ = true ∧
      circleContains k ⟨0, 2⟩ = true ∧
      ∀ p : Pt, k.radius2 < sqDist k.center p → circleContains k p = false) :=
  ⟨by norm_num [turn, cross, sgn],
   circle_three_points ⟨0, 0⟩ ⟨2, 0⟩ ⟨0, 2⟩ (by norm_num [turn, cross, sgn])⟩

end CWA
